import Mathlib

/-!
Shallow embedding of `eval_tool_n_standard_import.py` (Karr Lab,
"Estimate relative influence of tools and standards"), and proofs of the
specified properties of its enrichment pipeline and table renderer.

Python dictionaries with optional keys are embedded as structures with
`Option` fields; Python floats are embedded as rationals; per-call errors
returned in an `errors` list are embedded as values, while exceptions that
escape a function (NameError, UnboundLocalError, KeyError, ValueError) are
embedded as `Except.error`.
-/

/-! ## Bibliography index (`class Biblio`) -/

/-- One bibtex entry: its `title` field and its citation key (`ID`). -/
structure BibEntry where
  title : String
  ID : String
deriving DecidableEq, Repr

/-- `Biblio.get_entry_key`: scan the bibliography entries in order and
return the `ID` of the first entry whose title equals `title` exactly
(case-sensitive `==`); fall through to `None` when no entry matches. -/
def get_entry_key (db : List BibEntry) (title : String) : Option String :=
  (db.find? (fun citation => citation.title = title)).map (fun citation => citation.ID)

/-! ## Curated-standard records (`class CuratedStandards`) -/

/-- One curated-standard record (one spreadsheet row).  The three
spreadsheet columns are always present; each enrichment field is absent
(`none`) until its pass writes it. -/
structure Entry where
  standard : String
  type_ : String
  title : String
  bib_key : Option String := none
  pub_year : Option ℚ := none
  pm_id : Option Nat := none
  pm_citations : Option ℚ := none
  gs_citations : Option ℚ := none
  survey_adoption_rate : Option ℚ := none
deriving DecidableEq, Repr

/-- `CuratedStandards.enrich_with_bib_key`: for every record, look its
title up in the bibliography; on a hit store the key in `bib_key`,
otherwise leave the record unchanged (the title is only reported as
missing). -/
def enrich_with_bib_key (db : List BibEntry) (entries : List Entry) : List Entry :=
  entries.map (fun e =>
    match get_entry_key db e.title with
    | some entry_key => { e with bib_key := some entry_key }
    | none => e)

/-! ## XML responses (`xml.etree.ElementTree`) -/

/-- An XML element: a tag and child elements (text content is irrelevant
to the embedded operations, which only count elements by tag). -/
inductive XmlElem where
  | node (tag : String) (children : List XmlElem)

/-- The tag of an element. -/
def XmlElem.tag : XmlElem → String
  | .node t _ => t

/-- The children of an element. -/
def XmlElem.children : XmlElem → List XmlElem
  | .node _ cs => cs

mutual

/-- `root.iter(tag)` as a list: depth-first preorder traversal of the
element and its descendants, keeping elements whose tag matches. -/
def XmlElem.iterTag (tag : String) : XmlElem → List XmlElem
  | .node t cs =>
      (if t = tag then [XmlElem.node t cs] else []) ++ XmlElem.iterTagList tag cs

/-- `iterTag` over a list of sibling elements. -/
def XmlElem.iterTagList (tag : String) : List XmlElem → List XmlElem
  | [] => []
  | c :: cs => XmlElem.iterTag tag c ++ XmlElem.iterTagList tag cs

end

/-- `NCBIUtils.get_num_citations_from_xml`: count the `Id` elements in the
parsed response and subtract one (the response lists the source record
itself first). -/
def get_num_citations_from_xml (root : XmlElem) : Int :=
  (XmlElem.iterTag "Id" root).length - 1

/-! ## NCBI elink (`NCBIUtils.get_num_citations`) -/

/-- An HTTP response to the elink cross-reference query: status code and
parsed XML body. -/
structure ElinkResponse where
  status : Nat
  xml : XmlElem

/-- `NCBIUtils.get_num_citations`: on HTTP success, return the count
derived from the XML with no error.  On a non-success status the source
builds its error message from the undefined name `pmc_id`
(`f"request error {status} for pmc_id {pmc_id}"`), so the call raises
`NameError` instead of returning. -/
def get_num_citations (resp : ElinkResponse) : Except String (Option Int × Option (List String)) :=
  if resp.status ≠ 200 then
    .error "NameError: name pmc_id is not defined"
  else
    .ok (some (get_num_citations_from_xml resp.xml), none)

/-! ## String helpers for the NCBI and Google Scholar clients -/

/-- The numeric value of a digit string (`int(...)` on matched digits). -/
def natOfDigits (ds : List Char) : Nat :=
  ds.foldl (fun a c => 10 * a + (c.toNat - 48)) 0

/-- `re.search("(\d+)", s)`: the first maximal run of digits in `s`, as a
number, or `none` when `s` holds no digit. -/
def firstDigitRun (cs : List Char) : Option Nat :=
  match cs.dropWhile (fun c => !c.isDigit) with
  | [] => none
  | c :: rest => some (natOfDigits (c :: rest.takeWhile Char.isDigit))

/-- `re.search("(\d\d\d\d)", s)`: the first four consecutive digits in
`s`, as a number, or `none` when no four consecutive digits occur. -/
def find4Digits : List Char → Option Nat
  | [] => none
  | c :: rest =>
    match rest with
    | b :: d :: e :: _ =>
      if c.isDigit && b.isDigit && d.isDigit && e.isDigit then
        some (natOfDigits [c, b, d, e])
      else find4Digits rest
    | _ => none

/-- `str.casefold` on the ASCII titles handled here: lowercase every
character. -/
def casefold (s : String) : String :=
  String.mk (s.data.map Char.toLower)

/-- `s[:-1]`: drop the final character. -/
def dropLastChar (s : String) : String :=
  String.mk s.data.dropLast

/-! ## NCBI esummary (`NCBIUtils.get_pub_metadata`) -/

/-- An esummary response: HTTP status and, in its body, the `pubdate` and
`title` fields of the queried record. -/
structure SummaryResponse where
  status : Nat
  pubdate : String
  title : String
deriving DecidableEq, Repr

/-- The value `get_pub_metadata` hands back when it returns: the source
returns a two-element tuple `(None, errors)` on a transport error and a
three-element tuple `(pub_year, title, errors)` otherwise, so the result
is a sum of both shapes. -/
inductive PMeta where
  | pair (year : Option Nat) (errors : List String)
  | triple (year : Nat) (title : String) (errors : List String)
deriving DecidableEq, Repr

/-- `NCBIUtils.get_pub_metadata`: on a transport error, return
`(None, errors)`.  Otherwise extract the first digit run of `pubdate` as
the year — when `pubdate` holds no digit the source appends a parse error
but then evaluates the never-assigned local `pub_year` in its return
statement, raising `UnboundLocalError` — and return the year, the title
with its final character stripped, and an empty error list. -/
def get_pub_metadata (pm_id : Nat) (resp : SummaryResponse) : Except String PMeta :=
  if resp.status ≠ 200 then
    .ok (.pair none ["request error " ++ Nat.repr resp.status ++ " for pm_id " ++ Nat.repr pm_id])
  else
    match firstDigitRun resp.pubdate.data with
    | none => .error "UnboundLocalError: local variable pub_year referenced before assignment"
    | some year => .ok (.triple year (dropLastChar resp.title) [])

/-! ## NCBI esearch (`NCBIUtils.get_pm_id`) -/

/-- An esearch response: HTTP status and the PubMed IDs parsed from the
`<Id>` elements of its XML body. -/
structure ESearchResponse where
  status : Nat
  ids : List Nat
deriving DecidableEq, Repr

/-- The disambiguation loop of `get_pm_id` over several candidate IDs:
resolve each candidate's metadata in order; propagate a raised exception;
unpacking the two-element transport-error tuple into three names raises
`ValueError`; a candidate carrying errors is returned as `(None, errors)`;
the first candidate whose resolved title equals the query title
case-insensitively is returned; after the loop, `(None, None)`. -/
def pm_id_scan (summaries : Nat → SummaryResponse) (title : String) :
    List Nat → Except String (Option Nat × Option (List String))
  | [] => .ok (none, none)
  | pm_id :: rest =>
    match get_pub_metadata pm_id (summaries pm_id) with
    | .error e => .error e
    | .ok (.pair _ _) => .error "ValueError: not enough values to unpack"
    | .ok (.triple _ pm_title errors) =>
      if errors ≠ [] then .ok (none, some errors)
      else if casefold pm_title = casefold title then .ok (some pm_id, none)
      else pm_id_scan summaries title rest

/-- `NCBIUtils.get_pm_id`: on a transport error, `(None, errors)`; with
zero IDs, `(None, None)`; with one ID, that ID and no error; with several
IDs, the disambiguation loop. -/
def get_pm_id (resp : ESearchResponse) (summaries : Nat → SummaryResponse) (title : String) :
    Except String (Option Nat × Option (List String)) :=
  if resp.status ≠ 200 then
    .ok (none, some ["NCBI_ESEARCH_TEMPLATE request error " ++ Nat.repr resp.status
                       ++ " for title " ++ title])
  else
    match resp.ids with
    | [] => .ok (none, none)
    | [pm_id] => .ok (some pm_id, none)
    | ids => pm_id_scan summaries title ids

/-! ## Google Scholar (`GoogleScholar.get_gs_results`, live path) -/

/-- The parts of a search-results response read by `get_gs_results`: the
free-text publication summary of the first organic result, its optional
"cited by" total, and its title. -/
structure GSResponse where
  summary : String
  citedBy : Option Nat
  gsTitle : String
deriving DecidableEq, Repr

/-- `GoogleScholar.get_gs_results` (live path): extract the first four
consecutive digits of the summary as the year, recording a parse error
and leaving the year `None` when absent; default the citation count to 0
when "cited by" is absent; return
`(gs_title, num_citations, pub_year, errors)`. -/
def get_gs_results (resp : GSResponse) (title : String) :
    String × Nat × Option Nat × List String :=
  let pub_year := find4Digits resp.summary.data
  let errors := if pub_year = none then ["cannot get year for " ++ title] else []
  let num_citations := resp.citedBy.getD 0
  (resp.gsTitle, num_citations, pub_year, errors)

/-- The title a candidate resolves to through `get_pub_metadata`: the
stored title with its final character stripped. -/
def resolvedTitle (s : SummaryResponse) : String :=
  dropLastChar s.title

/-! ## Claim theorems (first group) -/

/-- Claim C1: after the bibliography-key enrichment pass, a record's
`bib_key` is set iff some bibliography entry's title is exactly equal to
the record's title, and when set it equals that entry's citation key. -/
theorem enrich_with_bib_key_correct (db : List BibEntry) (entries : List Entry)
    (hinit : ∀ e0 ∈ entries, e0.bib_key = none)
    (e : Entry) (he : e ∈ enrich_with_bib_key db entries) :
    ((e.bib_key).isSome ↔ ∃ b ∈ db, b.title = e.title) ∧
      (∀ k, e.bib_key = some k → ∃ b ∈ db, b.title = e.title ∧ b.ID = k) := by
  rcases List.mem_map.mp he with ⟨e0, he0, rfl⟩
  have h0 : e0.bib_key = none := hinit e0 he0
  cases hfind : get_entry_key db e0.title with
  | none =>
    simp only [hfind]
    unfold get_entry_key at hfind
    rcases Option.map_eq_none'.mp hfind with hnone
    have hall := List.find?_eq_none.mp hnone
    constructor
    · simp only [h0, Option.isSome_none]
      constructor
      · intro h; exact absurd h (by simp)
      · rintro ⟨b, hb, hbt⟩
        have := hall b hb
        simp only [decide_eq_true_eq] at this
        exact absurd hbt this
    · intro k hk
      rw [h0] at hk
      exact absurd hk (by simp)
  | some key =>
    simp only [hfind]
    unfold get_entry_key at hfind
    rcases Option.map_eq_some'.mp hfind with ⟨b, hb, hbk⟩
    have hmem : b ∈ db := List.mem_of_find?_eq_some hb
    have hbt : b.title = e0.title := by
      have := List.find?_some hb
      simpa using this
    constructor
    · simp only [Option.isSome_some, true_iff]
      exact ⟨b, hmem, hbt⟩
    · intro k hk
      simp only [Option.some.injEq] at hk
      exact ⟨b, hmem, hbt, by rw [hbk, hk]⟩

/-- The bibliography of the C1 witness. -/
def fooDb : List BibEntry := [⟨"Foo", "foo99"⟩]

/-- The store of the C1 witness: one record titled "Foo". -/
def fooEntries : List Entry := [{ standard := "s", type_ := "t", title := "Foo" }]

/-- The record of the C1 witness after the bibliography-key pass. -/
def fooEnriched : Entry :=
  { standard := "s", type_ := "t", title := "Foo", bib_key := some "foo99" }

/-- Witness for C1: a one-entry store and a bibliography holding the
title "Foo" under key "foo99"; the enriched record satisfies the claim. -/
theorem enrich_with_bib_key_correct_witness :
    ((fooEnriched.bib_key).isSome ↔ ∃ b ∈ fooDb, b.title = fooEnriched.title) ∧
      (∀ k, fooEnriched.bib_key = some k →
        ∃ b ∈ fooDb, b.title = fooEnriched.title ∧ b.ID = k) :=
  enrich_with_bib_key_correct fooDb fooEntries (by decide) fooEnriched (by decide)

/-- Claim C4: the citation count is the number of `Id` elements in the
cross-reference XML minus one; a response with five `Id` elements yields
four (shown for a wrapping document whose `Id` elements are children of a
link-set element, as elink returns them). -/
theorem get_num_citations_from_xml_count :
    (∀ root : XmlElem,
      get_num_citations_from_xml root = (XmlElem.iterTag "Id" root).length - 1) ∧
    get_num_citations_from_xml
      (.node "eLinkResult"
        [.node "LinkSet"
          [.node "Id" [], .node "Id" [], .node "Id" [], .node "Id" [], .node "Id" []]]) = 4 :=
  ⟨fun _ => rfl, rfl⟩

/-- Claim C5 (code bug): on a non-success HTTP status the citation-count
operation does not return `(None, errors)` — evaluating its error message
raises `NameError` because the source references the undefined name
`pmc_id`.  Shown at status 404; HTTP success still returns the count. -/
theorem get_num_citations_error_path :
    get_num_citations ⟨404, .node "eLinkResult" []⟩
        = .error "NameError: name pmc_id is not defined" ∧
      get_num_citations ⟨200, .node "eLinkResult" [.node "Id" [], .node "Id" []]⟩
        = .ok (some 1, none) :=
  ⟨rfl, rfl⟩

/-- Helper for C3: under resolvable candidate metadata (HTTP success and
a digit run in every `pubdate`), the disambiguation loop returns the
first candidate whose resolved title matches case-insensitively, and
`(None, None)` when none does. -/
theorem pm_id_scan_eq_find (summaries : Nat → SummaryResponse) (title : String)
    (ids : List Nat)
    (hres : ∀ i ∈ ids, (summaries i).status = 200 ∧
      (firstDigitRun (summaries i).pubdate.data).isSome) :
    pm_id_scan summaries title ids
      = .ok (ids.find? (fun i => casefold (resolvedTitle (summaries i)) = casefold title),
             none) := by
  induction ids with
  | nil => rfl
  | cons i rest ih =>
    obtain ⟨hst, hdig⟩ := hres i (List.mem_cons_self i rest)
    obtain ⟨y, hy⟩ := Option.isSome_iff_exists.mp hdig
    by_cases hmatch : casefold (resolvedTitle (summaries i)) = casefold title
    · simp [pm_id_scan, get_pub_metadata, hst, hy, resolvedTitle, hmatch, List.find?]
      simp [resolvedTitle] at hmatch
      simp [hmatch]
    · have ih2 := ih (fun j hj => hres j (List.mem_cons_of_mem _ hj))
      simp [pm_id_scan, get_pub_metadata, hst, hy, resolvedTitle, hmatch, List.find?, ih2]
      simp [resolvedTitle] at hmatch
      simp [hmatch]

/-- Claim C3: with the search call succeeding and every candidate's
metadata resolvable, `get_pm_id` returns no identifier and no error on
zero matches; the identifier on exactly one match; and, on several
matches, the first candidate whose resolved title equals the query title
case-insensitively, or no identifier and no error when none matches. -/
theorem get_pm_id_spec (resp : ESearchResponse) (summaries : Nat → SummaryResponse)
    (title : String) (hstatus : resp.status = 200)
    (hres : ∀ i ∈ resp.ids, (summaries i).status = 200 ∧
      (firstDigitRun (summaries i).pubdate.data).isSome) :
    (resp.ids = [] → get_pm_id resp summaries title = .ok (none, none)) ∧
    (∀ i, resp.ids = [i] → get_pm_id resp summaries title = .ok (some i, none)) ∧
    (2 ≤ resp.ids.length →
      get_pm_id resp summaries title
        = .ok (resp.ids.find?
            (fun i => casefold (resolvedTitle (summaries i)) = casefold title), none)) := by
  refine ⟨fun hids => ?_, fun i hids => ?_, fun hlen => ?_⟩
  · simp [get_pm_id, hstatus, hids]
  · simp [get_pm_id, hstatus, hids]
  · rcases hids : resp.ids with _ | ⟨a, _ | ⟨b, tl⟩⟩
    · rw [hids] at hlen; simp at hlen
    · rw [hids] at hlen; simp at hlen
    · have hscan := pm_id_scan_eq_find summaries title (a :: b :: tl)
        (fun j hj => hres j (by rw [hids]; exact hj))
      simp [get_pm_id, hstatus, hids, hscan]

/-- Summary responses for the C3 witness: candidate 12 resolves to a
title that matches "Foo Bar" up to case once its trailing period is
stripped; the other candidates resolve to a different title. -/
def witnessSummaries : Nat → SummaryResponse := fun i =>
  if i = 12 then ⟨200, "2010 Jan", "FOO bar."⟩ else ⟨200, "2009 Feb", "Other title."⟩

/-- Witness for C3: a search returning three identifiers of which only
the second resolves to a case-insensitive title match yields that second
identifier and no error. -/
theorem get_pm_id_spec_witness :
    get_pm_id ⟨200, [11, 12, 13]⟩ witnessSummaries "Foo Bar" = .ok (some 12, none) := by
  have h := (get_pm_id_spec ⟨200, [11, 12, 13]⟩ witnessSummaries "Foo Bar" rfl
      (by decide)).2.2 (by decide)
  rw [h]
  simp only [Except.ok.injEq]
  decide

/-- Claim C6 (code bug): a metadata response whose `pubdate` holds no
digit makes `get_pub_metadata` raise `UnboundLocalError` (its return
statement reads the never-assigned local `pub_year`) instead of returning
the recorded parse error; the scholar client's year parse, by contrast,
records its error and returns. -/
theorem get_pub_metadata_parse_error_raises :
    get_pub_metadata 7 ⟨200, "n.d.", "Some title."⟩
        = .error "UnboundLocalError: local variable pub_year referenced before assignment" ∧
      get_gs_results ⟨"no year in summary text", some 5, "T"⟩ "q"
        = ("T", 5, none, ["cannot get year for q"]) :=
  ⟨rfl, rfl⟩

/-! ## Survey adoption (`CuratedStandards.enrich_with_survey_data`) -/

/-- `responses.split(';')`: split an answer at every semicolon. -/
def splitSemis (s : String) : List String :=
  (s.data.splitOn ';').map String.mk

/-- The survey columns for the three fixed questions, in their order in
the source; each list holds one cell per respondent, with `""` for an
empty (falsy) cell. -/
structure Survey where
  q1 : List String
  q2 : List String
  q3 : List String
deriving DecidableEq, Repr

/-- The number of respondents giving a non-empty answer to a question
(`num_answers[question]`). -/
def numAnswers (responses : List String) : Nat :=
  (responses.filter (fun r => r ≠ "")).length

/-- `adoption[question][tool]`: across the non-empty answers to one
question, the number of semicolon-separated items equal to `tool`. -/
def toolCount (tool : String) (responses : List String) : Nat :=
  ((responses.filter (fun r => r ≠ "")).map
    (fun r => ((splitSemis r).filter (fun t => t = tool)).length)).sum

/-- `count / num_answers[question]` as computed by the source for one
question (0 when the tool never occurs, also when nobody answered). -/
def questionFraction (tool : String) (responses : List String) : ℚ :=
  (toolCount tool responses : ℚ) / (numAnswers responses : ℚ)

/-- One step of the `fractional_adoption` dict update: a question in
which the tool never occurs leaves the accumulator unchanged; otherwise
the running value becomes `max(count/num_answers, previous or 0)`. -/
def updateAdoption (tool : String) (responses : List String) (acc : Option ℚ) : Option ℚ :=
  if toolCount tool responses = 0 then acc
  else some (max (questionFraction tool responses) (acc.getD 0))

/-- `fractional_adoption[tool]` after the loop over the three questions
(in source order), `none` when the tool occurs in no answer. -/
def fractional_adoption (tool : String) (sv : Survey) : Option ℚ :=
  updateAdoption tool sv.q3 (updateAdoption tool sv.q2 (updateAdoption tool sv.q1 none))

/-- `CuratedStandards.enrich_with_survey_data`: each record whose
standard name has a fractional adoption gets it as its survey adoption
rate; other records are unchanged. -/
def enrich_with_survey_data (sv : Survey) (entries : List Entry) : List Entry :=
  entries.map (fun e =>
    match fractional_adoption e.standard sv with
    | some rate => { e with survey_adoption_rate := some rate }
    | none => e)

/-- Modelled from the spec: the per-question usage fraction in the
claim's words — the number of RESPONDENTS selecting the tool in a
question (not the number of occurrences), over the number of respondents
answering it. -/
def respondentsSelecting (tool : String) (responses : List String) : Nat :=
  (responses.filter (fun r => r ≠ "" ∧ tool ∈ splitSemis r)).length

/-- Modelled from the spec: the claim's per-question fraction. -/
def specQuestionFraction (tool : String) (responses : List String) : ℚ :=
  (respondentsSelecting tool responses : ℚ) / (numAnswers responses : ℚ)

/-- Modelled from the spec: the claim's adoption rate — the maximum of
the per-respondent fractions over the three questions. -/
def specAdoptionRate (tool : String) (sv : Survey) : ℚ :=
  max (specQuestionFraction tool sv.q1)
    (max (specQuestionFraction tool sv.q2) (specQuestionFraction tool sv.q3))

/-- A per-question fraction is nonnegative. -/
theorem questionFraction_nonneg (tool : String) (rs : List String) :
    0 ≤ questionFraction tool rs :=
  div_nonneg (Nat.cast_nonneg _) (Nat.cast_nonneg _)

/-- A question in which the tool never occurs contributes fraction 0. -/
theorem questionFraction_of_count_zero (tool : String) (rs : List String)
    (h : toolCount tool rs = 0) : questionFraction tool rs = 0 := by
  simp [questionFraction, h]

/-- Helper for C2: when the tool occurs in at least one question, the
dict value built by the loop equals the maximum of the three per-question
fractions. -/
theorem fractional_adoption_eq_max (tool : String) (sv : Survey)
    (happ : ¬(toolCount tool sv.q1 = 0 ∧ toolCount tool sv.q2 = 0 ∧
      toolCount tool sv.q3 = 0)) :
    fractional_adoption tool sv
      = some (max (questionFraction tool sv.q1)
          (max (questionFraction tool sv.q2) (questionFraction tool sv.q3))) := by
  have n1 := questionFraction_nonneg tool sv.q1
  have n2 := questionFraction_nonneg tool sv.q2
  have n3 := questionFraction_nonneg tool sv.q3
  by_cases h1 : toolCount tool sv.q1 = 0 <;>
    by_cases h2 : toolCount tool sv.q2 = 0 <;>
      by_cases h3 : toolCount tool sv.q3 = 0
  · exact absurd ⟨h1, h2, h3⟩ happ
  all_goals
    simp only [fractional_adoption, updateAdoption, h1, h2, h3, if_true, if_false,
      eq_self_iff_true, if_neg, if_pos, Option.getD_some, Option.getD_none,
      Option.some.injEq]
  all_goals
    first
      | (rw [questionFraction_of_count_zero tool sv.q1 h1])
      | skip
  all_goals
    first
      | (rw [questionFraction_of_count_zero tool sv.q2 h2])
      | skip
  all_goals
    first
      | (rw [questionFraction_of_count_zero tool sv.q3 h3])
      | skip
  all_goals simp [max_comm, max_assoc, max_left_comm, max_eq_left, max_eq_right, n1, n2, n3]

/-- The amended claim's formula for C2: the maximum over the three fixed
questions of the per-question occurrence fraction. -/
def maxQuestionFraction (tool : String) (sv : Survey) : ℚ :=
  max (questionFraction tool sv.q1)
    (max (questionFraction tool sv.q2) (questionFraction tool sv.q3))

/-- Claim C2 (amended): for a record whose standard name occurs in at
least one survey answer, the survey-adoption pass assigns the maximum
over the three fixed questions of (number of occurrences of the tool
among the semicolon-split non-empty answers) / (number of non-empty
answers); in particular a maximum, never a sum or an average. -/
theorem enrich_with_survey_data_assigns_max (sv : Survey) (entries : List Entry)
    (e : Entry) (n : Nat) (hn : entries.get? n = some e)
    (happ : ¬(toolCount e.standard sv.q1 = 0 ∧ toolCount e.standard sv.q2 = 0 ∧
      toolCount e.standard sv.q3 = 0)) :
    (enrich_with_survey_data sv entries).get? n
      = some { e with survey_adoption_rate := some (maxQuestionFraction e.standard sv) } := by
  have hfa := fractional_adoption_eq_max e.standard sv happ
  have hn2 : entries[n]? = some e := by rw [← List.get?_eq_getElem?]; exact hn
  simp only [enrich_with_survey_data, List.get?_eq_getElem?, List.getElem?_map, hn2,
    Option.map_some', hfa, maxQuestionFraction]

/-- Witness for C2 (amended): tool "A" is picked by the only respondent
answering question 1 and by the only respondent answering question 2, so
its assigned rate is max(1, 1, 0) = 1. -/
theorem enrich_with_survey_data_assigns_max_witness :
    (enrich_with_survey_data ⟨["A;B"], ["A"], []⟩
        [{ standard := "A", type_ := "t", title := "T" }]).get? 0
      = some { standard := "A", type_ := "t", title := "T",
               survey_adoption_rate := some 1 } := by
  have h := enrich_with_survey_data_assigns_max ⟨["A;B"], ["A"], []⟩
    [{ standard := "A", type_ := "t", title := "T" }]
    { standard := "A", type_ := "t", title := "T" } 0 rfl (by decide)
  rw [h]
  have c1 : toolCount "A" ["A;B"] = 1 := by decide
  have c2 : toolCount "A" ["A"] = 1 := by decide
  have c3 : toolCount "A" ([] : List String) = 0 := by decide
  have a1 : numAnswers ["A;B"] = 1 := by decide
  have a2 : numAnswers ["A"] = 1 := by decide
  have a3 : numAnswers ([] : List String) = 0 := by decide
  simp only [maxQuestionFraction, questionFraction, c1, c2, c3, a1, a2, a3,
    Nat.cast_one, Nat.cast_zero]
  norm_num

/-- Counterexample for C2 as stated: one respondent answers question 1
with "A;A", so the source computes 2 occurrences / 1 respondent = 2,
while the claim's respondent-based fraction is 1/1 = 1. -/
theorem enrich_with_survey_data_cex :
    (enrich_with_survey_data ⟨["A;A"], [], []⟩
        [{ standard := "A", type_ := "t", title := "T" }]
      = [{ standard := "A", type_ := "t", title := "T",
           survey_adoption_rate := some 2 }]) ∧
      specAdoptionRate "A" ⟨["A;A"], [], []⟩ = 1 ∧ (2 : ℚ) ≠ 1 := by
  refine ⟨?_, ?_, by norm_num⟩
  · have c1 : toolCount "A" ["A;A"] = 2 := by decide
    have c0 : toolCount "A" ([] : List String) = 0 := by decide
    have a1 : numAnswers ["A;A"] = 1 := by decide
    have hfa : fractional_adoption "A" ⟨["A;A"], [], []⟩ = some 2 := by
      simp only [fractional_adoption, updateAdoption, c1, c0, questionFraction, a1,
        Nat.cast_ofNat, Nat.cast_one, Option.getD_none]
      norm_num
    simp [enrich_with_survey_data, hfa]
  · have r1 : respondentsSelecting "A" ["A;A"] = 1 := by decide
    have r0 : respondentsSelecting "A" ([] : List String) = 0 := by decide
    have a1 : numAnswers ["A;A"] = 1 := by decide
    have a0 : numAnswers ([] : List String) = 0 := by decide
    simp only [specAdoptionRate, specQuestionFraction, r1, r0, a1, a0,
      Nat.cast_one, Nat.cast_zero]
    norm_num

/-! ## Table renderer (`CuratedStandards.generate_data_table`)

Rows are lists of seven cell strings.  Python float values are embedded
as rationals; `f"{x:.1f}"` is embedded with round-half-up on rationals
(the tie direction is irrelevant to every property proved below); a
`KeyError` on a missing `bib_key` and the `ValueError` raised by
`float('')` in the sort key are embedded as `Except.error`. -/

/-- Decimal rendering of an integer (`str` on ints). -/
def intRepr (n : Int) : String :=
  (if n < 0 then "-" else "") ++ Nat.repr n.natAbs

/-- One-decimal rendering of an integer number of tenths. -/
def fmtInt1 (n : Int) : String :=
  (if n < 0 then "-" else "") ++ Nat.repr (n.natAbs / 10) ++ "." ++ Nat.repr (n.natAbs % 10)

/-- `f"{q:.1f}"`: format with one decimal place. -/
def fmt1 (q : ℚ) : String :=
  fmtInt1 (round (q * 10))

/-- `str(pub_year)` (an integer in every live run; a fraction is rendered
as numerator/denominator, a case no claim touches). -/
def yearCell (q : ℚ) : String :=
  if q.den = 1 then intRepr q.num else intRepr q.num ++ "/" ++ Nat.repr q.den

/-- `row[2]`: the LaTeX citation cell built from the record's `bib_key`. -/
def citeCell (bk : String) : String :=
  "\\cite\x7b" ++ bk ++ "\x7d"

/-- The loop body of `generate_data_table` for one record: reading
`bib_key` of a record that has none raises `KeyError`; a record with a
publication year and non-positive age is skipped (`.ok none`); otherwise
the seven cells are produced, each citation/adoption cell formatted when
its field is present and left `""` otherwise (all of row 3-6 stay `""`
when `pub_year` is absent). -/
def rowOf (current_year : ℚ) (e : Entry) : Except String (Option (List String)) :=
  match e.bib_key with
  | none => .error "KeyError: bib_key"
  | some bk =>
    match e.pub_year with
    | none => .ok (some [e.standard, e.type_, citeCell bk, "", "", "", ""])
    | some py =>
      if current_year - py ≤ 0 then .ok none
      else
        .ok (some [e.standard, e.type_, citeCell bk, yearCell py,
          (match e.pm_citations with
           | some c => fmt1 (c / (current_year - py))
           | none => ""),
          (match e.gs_citations with
           | some c => fmt1 (c / (current_year - py))
           | none => ""),
          (match e.survey_adoption_rate with
           | some rate => fmt1 (rate * 100)
           | none => "")])

/-- The full loop of `generate_data_table`: rows in record order, skipped
records dropped, the first raised `KeyError` propagated. -/
def buildRows (current_year : ℚ) : List Entry → Except String (List (List String))
  | [] => .ok []
  | e :: rest =>
    match rowOf current_year e with
    | .error err => .error err
    | .ok none => buildRows current_year rest
    | .ok (some r) =>
      match buildRows current_year rest with
      | .error err => .error err
      | .ok rs => .ok (r :: rs)

/-- `ds.all Char.isDigit` for float parsing. -/
def allDigits (ds : List Char) : Bool :=
  ds.all Char.isDigit

/-- The unsigned part of `float(s)` on the decimal strings this program
produces: digits with at most one point, at least one digit in total. -/
def parseUnsignedFloat (cs : List Char) : Option ℚ :=
  match cs.splitOn '.' with
  | [intPart] =>
    if intPart ≠ [] ∧ allDigits intPart then some (natOfDigits intPart : ℚ) else none
  | [intPart, fracPart] =>
    if (intPart ≠ [] ∨ fracPart ≠ []) ∧ allDigits intPart ∧ allDigits fracPart then
      some ((natOfDigits intPart : ℚ)
        + (natOfDigits fracPart : ℚ) / ((10 : ℚ) ^ fracPart.length))
    else none
  | _ => none

/-- `float(s)` on the cell grammar of this table: `none` embeds the
`ValueError` raised on `''` and other non-numeric strings. -/
def parseFloat (s : String) : Option ℚ :=
  match s.data with
  | [] => none
  | '-' :: rest => (parseUnsignedFloat rest).map Neg.neg
  | cs => parseUnsignedFloat cs

/-- The sort key of a row: `float(row[5])`, the Scholar citations/year
cell. -/
def parseKey (r : List String) : Option ℚ :=
  parseFloat (r.getD 5 "")

/-- `float(row[5])` for every row, computed before any reordering,
`none` embedding the `ValueError` that aborts the sort. -/
def keyedRows : List (List String) → Option (List (ℚ × List String))
  | [] => some []
  | r :: rs =>
    match parseKey r with
    | none => none
    | some k => (keyedRows rs).map (fun ps => (k, r) :: ps)

/-- Stable descending insertion: a later row moves past every earlier
row with a key at least its own, so equal keys keep input order. -/
def insertDesc (x : ℚ × List String) : List (ℚ × List String) → List (ℚ × List String)
  | [] => [x]
  | y :: ys => if x.1 ≤ y.1 then y :: insertDesc x ys else x :: y :: ys

/-- The stable descending sort
(`rows.sort(key=..., reverse=True)` is stable in the source language). -/
def sortDesc (l : List (ℚ × List String)) : List (ℚ × List String) :=
  l.foldl (fun acc x => insertDesc x acc) []

/-- The final sort of `generate_data_table`: key every row by
`float(row[5])` (raising on an unparseable cell), then stable-sort by
decreasing key. -/
def sortRows (rows : List (List String)) : Except String (List (List String)) :=
  match keyedRows rows with
  | none => .error "ValueError: could not convert string to float"
  | some ks => .ok ((sortDesc ks).map Prod.snd)

/-- `CuratedStandards.generate_data_table`: build the rows, then sort
them by decreasing Scholar citations per year. -/
def generate_data_table (current_year : ℚ) (entries : List Entry) :
    Except String (List (List String)) :=
  match buildRows current_year entries with
  | .error err => .error err
  | .ok rows => sortRows rows

/-! ## Lemmas about the stable descending sort -/

/-- Membership through one insertion. -/
theorem mem_insertDesc {x a : ℚ × List String} {l : List (ℚ × List String)} :
    a ∈ insertDesc x l ↔ a = x ∨ a ∈ l := by
  induction l with
  | nil => simp [insertDesc]
  | cons y ys ih =>
    by_cases h : x.1 ≤ y.1
    · rw [insertDesc, if_pos h]
      simp only [List.mem_cons, ih]
      tauto
    · rw [insertDesc, if_neg h]
      simp only [List.mem_cons]

/-- Insertion preserves the descending order of keys. -/
theorem sorted_insertDesc {x : ℚ × List String} {l : List (ℚ × List String)}
    (hl : l.Pairwise (fun a b => b.1 ≤ a.1)) :
    (insertDesc x l).Pairwise (fun a b => b.1 ≤ a.1) := by
  induction l with
  | nil => simp [insertDesc]
  | cons y ys ih =>
    rcases List.pairwise_cons.mp hl with ⟨hy, hys⟩
    by_cases h : x.1 ≤ y.1
    · rw [insertDesc, if_pos h]
      refine List.pairwise_cons.mpr ⟨?_, ih hys⟩
      intro z hz
      rcases mem_insertDesc.mp hz with rfl | hz2
      · exact h
      · exact hy z hz2
    · rw [insertDesc, if_neg h]
      refine List.pairwise_cons.mpr ⟨?_, hl⟩
      intro z hz
      rcases List.mem_cons.mp hz with rfl | hz2
      · exact le_of_lt (lt_of_not_le h)
      · exact le_trans (hy z hz2) (le_of_lt (lt_of_not_le h))

/-- The accumulated insertion sort stays descending. -/
theorem sorted_foldl_insertDesc (l : List (ℚ × List String)) :
    ∀ acc, acc.Pairwise (fun a b => b.1 ≤ a.1) →
      (l.foldl (fun acc x => insertDesc x acc) acc).Pairwise (fun a b => b.1 ≤ a.1) := by
  induction l with
  | nil => intro acc h; exact h
  | cons x xs ih => intro acc h; exact ih _ (sorted_insertDesc h)

/-- The sorted rows are descending by key. -/
theorem sorted_sortDesc (l : List (ℚ × List String)) :
    (sortDesc l).Pairwise (fun a b => b.1 ≤ a.1) :=
  sorted_foldl_insertDesc l [] (by simp)

/-- Membership through the accumulated insertion sort. -/
theorem mem_foldl_insertDesc (l : List (ℚ × List String)) :
    ∀ acc a, (a ∈ l.foldl (fun acc x => insertDesc x acc) acc ↔ a ∈ acc ∨ a ∈ l) := by
  induction l with
  | nil => simp
  | cons x xs ih =>
    intro acc a
    simp only [List.foldl_cons]
    rw [ih]
    rw [mem_insertDesc]
    simp only [List.mem_cons]
    tauto

/-- The sort neither adds nor removes rows. -/
theorem mem_sortDesc {a : ℚ × List String} {l : List (ℚ × List String)} :
    a ∈ sortDesc l ↔ a ∈ l := by
  rw [sortDesc, mem_foldl_insertDesc]; simp

/-- Inserting a row with a different key leaves a key's fiber alone. -/
theorem filter_insertDesc_ne (x : ℚ × List String) (l : List (ℚ × List String))
    (k : ℚ) (hx : x.1 ≠ k) :
    (insertDesc x l).filter (fun p => p.1 = k) = l.filter (fun p => p.1 = k) := by
  induction l with
  | nil => simp [insertDesc, hx]
  | cons y ys ih =>
    by_cases h : x.1 ≤ y.1
    · simp only [insertDesc, if_pos h, List.filter_cons, ih]
    · rw [insertDesc, if_neg h, List.filter_cons]
      simp [hx]

/-- In a descending list headed by a key below `k`, the fiber of `k` is
empty. -/
theorem filter_eq_nil_of_lt (k : ℚ) (y : ℚ × List String) (ys : List (ℚ × List String))
    (hs : (y :: ys).Pairwise (fun a b => b.1 ≤ a.1)) (hy : y.1 < k) :
    (y :: ys).filter (fun p => p.1 = k) = [] := by
  rw [List.filter_eq_nil_iff]
  intro p hp
  rcases List.mem_cons.mp hp with rfl | hmem
  · simpa using ne_of_lt hy
  · have hle := (List.pairwise_cons.mp hs).1 p hmem
    simpa using ne_of_lt (lt_of_le_of_lt hle hy)

/-- Inserting a row with key `k` into a descending list appends it to the
end of the `k` fiber: insertion is stable. -/
theorem filter_insertDesc_eq (x : ℚ × List String) (l : List (ℚ × List String))
    (k : ℚ) (hx : x.1 = k) (hl : l.Pairwise (fun a b => b.1 ≤ a.1)) :
    (insertDesc x l).filter (fun p => p.1 = k)
      = l.filter (fun p => p.1 = k) ++ [x] := by
  induction l with
  | nil => simp [insertDesc, hx]
  | cons y ys ih =>
    rcases List.pairwise_cons.mp hl with ⟨hy, hys⟩
    by_cases h : x.1 ≤ y.1
    · simp only [insertDesc, if_pos h, List.filter_cons, ih hys]
      by_cases hyk : y.1 = k <;> simp [hyk]
    · have hlt : y.1 < x.1 := lt_of_not_le h
      have hnil := filter_eq_nil_of_lt k y ys hl (hx ▸ hlt)
      rw [insertDesc, if_neg h, List.filter_cons, hnil]
      simp [hx]

/-- Stability of the accumulated sort: each key's fiber is the
concatenation of its fiber in the accumulator and its fiber in the
remaining input, in input order. -/
theorem filter_foldl_insertDesc (k : ℚ) (l : List (ℚ × List String)) :
    ∀ acc, acc.Pairwise (fun a b => b.1 ≤ a.1) →
      (l.foldl (fun acc x => insertDesc x acc) acc).filter (fun p => p.1 = k)
        = acc.filter (fun p => p.1 = k) ++ l.filter (fun p => p.1 = k) := by
  induction l with
  | nil => simp
  | cons x xs ih =>
    intro acc hacc
    simp only [List.foldl_cons]
    rw [ih _ (sorted_insertDesc hacc)]
    by_cases hx : x.1 = k
    · rw [filter_insertDesc_eq x acc k hx hacc]
      simp [List.filter_cons, hx, List.append_assoc]
    · rw [filter_insertDesc_ne x acc k hx]
      simp [List.filter_cons, hx]

/-- The sort is stable: it permutes rows without reordering any fiber of
equal keys. -/
theorem filter_sortDesc (k : ℚ) (l : List (ℚ × List String)) :
    (sortDesc l).filter (fun p => p.1 = k) = l.filter (fun p => p.1 = k) := by
  rw [sortDesc, filter_foldl_insertDesc k l [] (by simp)]; simp

/-- When keying succeeds, the keyed list projects back to the rows and
every pair carries its row's parsed key. -/
theorem keyedRows_spec (rows : List (List String)) (ks : List (ℚ × List String))
    (h : keyedRows rows = some ks) :
    ks.map Prod.snd = rows ∧ ∀ p ∈ ks, parseKey p.2 = some p.1 := by
  induction rows generalizing ks with
  | nil =>
    simp only [keyedRows, Option.some.injEq] at h
    subst h; simp
  | cons r rs ih =>
    simp only [keyedRows] at h
    cases hpk : parseKey r with
    | none => rw [hpk] at h; simp at h
    | some k =>
      rw [hpk] at h
      cases hkr : keyedRows rs with
      | none => rw [hkr] at h; simp at h
      | some ps =>
        rw [hkr] at h
        simp only [Option.map_some', Option.some.injEq] at h
        subst h
        obtain ⟨h1, h2⟩ := ih ps hkr
        refine ⟨by simp [h1], ?_⟩
        intro p hp
        rcases List.mem_cons.mp hp with rfl | hmem
        · exact hpk
        · exact h2 p hmem

/-! ## Lemmas about the row builder -/

/-- A record without a `bib_key` raises `KeyError` in the loop body. -/
theorem rowOf_of_no_bib_key (cy : ℚ) (e : Entry) (h : e.bib_key = none) :
    rowOf cy e = .error "KeyError: bib_key" := by
  simp [rowOf, h]

/-- A record with a `bib_key` never raises in the loop body. -/
theorem rowOf_isOk_of_bib_key (cy : ℚ) (e : Entry) (bk : String)
    (h : e.bib_key = some bk) : ∃ o, rowOf cy e = .ok o := by
  simp only [rowOf, h]
  cases e.pub_year with
  | none => exact ⟨_, rfl⟩
  | some py =>
    by_cases hage : cy - py ≤ 0
    · exact ⟨none, by simp [hage]⟩
    · refine ⟨some [e.standard, e.type_, citeCell bk, yearCell py,
        (match e.pm_citations with | some c => fmt1 (c / (cy - py)) | none => ""),
        (match e.gs_citations with | some c => fmt1 (c / (cy - py)) | none => ""),
        (match e.survey_adoption_rate with
         | some rate => fmt1 (rate * 100)
         | none => "")], ?_⟩
      simp [hage]

/-- A record with a publication year and non-positive age is skipped. -/
theorem rowOf_skip (cy : ℚ) (e : Entry) (bk : String) (hb : e.bib_key = some bk)
    (py : ℚ) (hp : e.pub_year = some py) (hage : cy - py ≤ 0) :
    rowOf cy e = .ok none := by
  simp [rowOf, hb, hp, hage]

/-- A produced row of a record missing its publication year or its
Scholar citation count has an empty Scholar cell. -/
theorem rowOf_cell5_empty (cy : ℚ) (e : Entry) (r : List String)
    (h : rowOf cy e = .ok (some r))
    (hmiss : e.pub_year = none ∨ e.gs_citations = none) :
    r.getD 5 "" = "" := by
  cases hbk : e.bib_key with
  | none => rw [rowOf_of_no_bib_key cy e hbk] at h; exact absurd h (by simp)
  | some bk =>
    cases hp : e.pub_year with
    | none =>
      simp only [rowOf, hbk, hp, Except.ok.injEq, Option.some.injEq] at h
      subst h; rfl
    | some py =>
      rcases hmiss with hmiss | hmiss
      · rw [hp] at hmiss; exact absurd hmiss (by simp)
      · by_cases hage : cy - py ≤ 0
        · rw [rowOf_skip cy e bk hbk py hp hage] at h; exact absurd h (by simp)
        · simp only [rowOf, hbk, hp, if_neg hage, hmiss, Except.ok.injEq,
            Option.some.injEq] at h
          subst h
          rfl

/-- Every row of the built list is the row of one of the records. -/
theorem buildRows_rows_from_entries (cy : ℚ) (entries : List Entry)
    (rows : List (List String)) (h : buildRows cy entries = .ok rows) :
    ∀ r ∈ rows, ∃ e ∈ entries, rowOf cy e = .ok (some r) := by
  induction entries generalizing rows with
  | nil =>
    simp only [buildRows, Except.ok.injEq] at h
    subst h; simp
  | cons e0 rest ih =>
    intro r hr
    simp only [buildRows] at h
    cases hr0 : rowOf cy e0 with
    | error err => rw [hr0] at h; exact absurd h (by simp)
    | ok o =>
      rw [hr0] at h
      cases o with
      | none =>
        obtain ⟨e, he, hrow⟩ := ih rows h r hr
        exact ⟨e, List.mem_cons_of_mem _ he, hrow⟩
      | some r0 =>
        cases hrest : buildRows cy rest with
        | error err => rw [hrest] at h; exact absurd h (by simp)
        | ok rs =>
          rw [hrest] at h
          simp only [Except.ok.injEq] at h
          subst h
          rcases List.mem_cons.mp hr with rfl | hmem
          · exact ⟨e0, List.mem_cons_self _ _, hr0⟩
          · obtain ⟨e, he, hrow⟩ := ih rs hrest r hmem
            exact ⟨e, List.mem_cons_of_mem _ he, hrow⟩

/-- Every record whose loop body produces a row has that row in the
built list. -/
theorem buildRows_mem_of_rowOf (cy : ℚ) (entries : List Entry)
    (rows : List (List String)) (h : buildRows cy entries = .ok rows) :
    ∀ e ∈ entries, ∀ r, rowOf cy e = .ok (some r) → r ∈ rows := by
  induction entries generalizing rows with
  | nil => intro e he; exact absurd he (by simp)
  | cons e0 rest ih =>
    intro e he r hr
    simp only [buildRows] at h
    cases hr0 : rowOf cy e0 with
    | error err => rw [hr0] at h; exact absurd h (by simp)
    | ok o =>
      rw [hr0] at h
      cases o with
      | none =>
        rcases List.mem_cons.mp he with rfl | hmem
        · rw [hr0] at hr; exact absurd hr (by simp)
        · exact ih rows h e hmem r hr
      | some r0 =>
        cases hrest : buildRows cy rest with
        | error err => rw [hrest] at h; exact absurd h (by simp)
        | ok rs =>
          rw [hrest] at h
          simp only [Except.ok.injEq] at h
          subst h
          rcases List.mem_cons.mp he with rfl | hmem
          · have : r0 = r := by
              have h2 := hr0.symm.trans hr
              simpa using h2
            subst this
            exact List.mem_cons_self _ _
          · exact List.mem_cons_of_mem _ (ih rs hrest e hmem r hr)

/-- A record without a `bib_key` anywhere in the store makes the whole
loop raise `KeyError`. -/
theorem buildRows_error_of_no_bib_key (cy : ℚ) (entries : List Entry) (e : Entry)
    (he : e ∈ entries) (hb : e.bib_key = none) :
    buildRows cy entries = .error "KeyError: bib_key" := by
  induction entries with
  | nil => exact absurd he (by simp)
  | cons e0 rest ih =>
    rcases List.mem_cons.mp he with rfl | hmem
    · simp [buildRows, rowOf_of_no_bib_key cy e hb]
    · cases hbk : e0.bib_key with
      | none => simp [buildRows, rowOf_of_no_bib_key cy e0 hbk]
      | some bk =>
        obtain ⟨o, ho⟩ := rowOf_isOk_of_bib_key cy e0 bk hbk
        have ih2 := ih hmem
        cases o with
        | none => simp [buildRows, ho, ih2]
        | some r => simp [buildRows, ho, ih2]

/-- Splitting a successful table generation into its two stages. -/
theorem generate_data_table_split (cy : ℚ) (entries : List Entry)
    (table : List (List String)) (h : generate_data_table cy entries = .ok table) :
    ∃ rows, buildRows cy entries = .ok rows ∧ sortRows rows = .ok table := by
  unfold generate_data_table at h
  cases hb : buildRows cy entries with
  | error err => rw [hb] at h; exact absurd h (by simp)
  | ok rows => rw [hb] at h; exact ⟨rows, rfl, h⟩

/-- Splitting a successful sort into its keying and its ordering. -/
theorem sortRows_split (rows table : List (List String))
    (h : sortRows rows = .ok table) :
    ∃ ks, keyedRows rows = some ks ∧ table = (sortDesc ks).map Prod.snd := by
  unfold sortRows at h
  cases hk : keyedRows rows with
  | none => rw [hk] at h; exact absurd h (by simp)
  | some ks =>
    rw [hk] at h
    simp only [Except.ok.injEq] at h
    exact ⟨ks, rfl, h.symm⟩

/-- On a keyed sublist, filtering rows by parsed key agrees with
filtering pairs by stored key. -/
theorem filter_parse_eq (ks l : List (ℚ × List String))
    (hparse : ∀ p ∈ ks, parseKey p.2 = some p.1) (k : ℚ)
    (hsub : ∀ p ∈ l, p ∈ ks) :
    l.filter (fun p => parseKey p.2 = some k) = l.filter (fun p => p.1 = k) := by
  apply List.filter_congr
  intro p hp
  have hcarry := hparse p (hsub p hp)
  simp [hcarry]

/-- Claim C10: reading `bib_key` is unconditional, so a store holding any
record without one makes `generate_data_table` raise `KeyError` instead
of rendering or skipping that record. -/
theorem generate_data_table_keyerror (cy : ℚ) (entries : List Entry) (e : Entry)
    (he : e ∈ entries) (hb : e.bib_key = none) :
    generate_data_table cy entries = .error "KeyError: bib_key" := by
  simp [generate_data_table, buildRows_error_of_no_bib_key cy entries e he hb]

/-- A record without a `bib_key`, for the C10 witness. -/
def noBibEntry : Entry :=
  { standard := "S", type_ := "t", title := "T", pub_year := some 2010, gs_citations := some 20 }

/-- Witness for C10: a single record without a `bib_key`. -/
theorem generate_data_table_keyerror_witness :
    generate_data_table 2020 [noBibEntry] = .error "KeyError: bib_key" :=
  generate_data_table_keyerror 2020 [noBibEntry] noBibEntry
    (List.mem_singleton.mpr rfl) rfl

/-- Claim C7: in a successful run, a record with a known publication
year and non-positive age is skipped without error (`.ok none`), and
every row of the rendered table comes from some record that produced a
row — so no such record's data appears in the output. -/
theorem generate_data_table_skips_nonpositive_age (cy : ℚ) (entries : List Entry)
    (table : List (List String)) (h : generate_data_table cy entries = .ok table) :
    (∀ e ∈ entries, ∀ py : ℚ, e.pub_year = some py → cy - py ≤ 0 →
        rowOf cy e = .ok none) ∧
      (∀ r ∈ table, ∃ e ∈ entries, rowOf cy e = .ok (some r)) := by
  obtain ⟨rows, hbr, hsr⟩ := generate_data_table_split cy entries table h
  constructor
  · intro e he py hp hage
    cases hbk : e.bib_key with
    | none =>
      rw [buildRows_error_of_no_bib_key cy entries e he hbk] at hbr
      exact absurd hbr (by simp)
    | some bk => exact rowOf_skip cy e bk hbk py hp hage
  · intro r hr
    obtain ⟨ks, hkr, htable⟩ := sortRows_split rows table hsr
    obtain ⟨hmap, _⟩ := keyedRows_spec rows ks hkr
    rw [htable] at hr
    obtain ⟨p, hp, rfl⟩ := List.mem_map.mp hr
    have hpk := mem_sortDesc.mp hp
    have hp2 : p.2 ∈ rows := by
      rw [← hmap]
      exact List.mem_map_of_mem Prod.snd hpk
    exact buildRows_rows_from_entries cy entries rows hbr p.2 hp2

/-- Claim C9: the sort parses the Scholar cell of every emitted row, so
a successful `generate_data_table` forces every record that produced a
row to carry both a publication year and a Scholar citation count, its
Scholar cell being non-empty. -/
theorem generate_data_table_requires_scholar (cy : ℚ) (entries : List Entry)
    (table : List (List String)) (h : generate_data_table cy entries = .ok table)
    (e : Entry) (he : e ∈ entries) (r : List String)
    (hr : rowOf cy e = .ok (some r)) :
    e.pub_year.isSome ∧ e.gs_citations.isSome ∧ r.getD 5 "" ≠ "" := by
  obtain ⟨rows, hbr, hsr⟩ := generate_data_table_split cy entries table h
  have hrmem : r ∈ rows := buildRows_mem_of_rowOf cy entries rows hbr e he r hr
  obtain ⟨ks, hkr, _⟩ := sortRows_split rows table hsr
  obtain ⟨hmap, hparse⟩ := keyedRows_spec rows ks hkr
  have hrk : ∃ k, parseKey r = some k := by
    rw [← hmap] at hrmem
    obtain ⟨p, hp, rfl⟩ := List.mem_map.mp hrmem
    exact ⟨p.1, hparse p hp⟩
  obtain ⟨k, hk⟩ := hrk
  have hcell : r.getD 5 "" ≠ "" := by
    intro hempty
    rw [parseKey, hempty] at hk
    exact absurd hk (by simp [parseFloat])
  refine ⟨?_, ?_, hcell⟩
  · cases hp : e.pub_year with
    | none => exact absurd (rowOf_cell5_empty cy e r hr (Or.inl hp)) hcell
    | some py => rfl
  · cases hg : e.gs_citations with
    | none => exact absurd (rowOf_cell5_empty cy e r hr (Or.inr hg)) hcell
    | some c => rfl

/-- Claim C8: the rendered table is non-increasing in the parsed Scholar
citations-per-year cell, and for every key value the rows carrying it
appear in the same order as in the built (input-ordered) row list: the
sort is stable. -/
theorem generate_data_table_sorted_stable (cy : ℚ) (entries : List Entry)
    (rows table : List (List String)) (hbr : buildRows cy entries = .ok rows)
    (h : generate_data_table cy entries = .ok table) :
    table.Pairwise (fun a b => ∀ x y : ℚ, parseKey a = some x → parseKey b = some y →
        y ≤ x) ∧
      (∀ k : ℚ, table.filter (fun r => parseKey r = some k)
        = rows.filter (fun r => parseKey r = some k)) := by
  obtain ⟨rows2, hbr2, hsr⟩ := generate_data_table_split cy entries table h
  rw [hbr] at hbr2
  have hrows : rows2 = rows := by simpa using hbr2.symm
  rw [hrows] at hsr
  obtain ⟨ks, hkr, htable⟩ := sortRows_split rows table hsr
  obtain ⟨hmap, hparse⟩ := keyedRows_spec rows ks hkr
  constructor
  · rw [htable]
    rw [List.pairwise_map]
    have hsorted := sorted_sortDesc ks
    refine List.Pairwise.imp_of_mem ?_ hsorted
    intro p q hp hq hle x y hx hy
    have hp2 := hparse p (mem_sortDesc.mp hp)
    have hq2 := hparse q (mem_sortDesc.mp hq)
    rw [hp2] at hx
    rw [hq2] at hy
    have hx2 : p.1 = x := by simpa using hx
    have hy2 : q.1 = y := by simpa using hy
    rw [← hx2, ← hy2]
    exact hle
  · intro k
    rw [htable, ← hmap]
    rw [List.filter_map, List.filter_map]
    have hsub1 : ∀ p ∈ sortDesc ks, p ∈ ks := fun p hp => mem_sortDesc.mp hp
    have hsub2 : ∀ p ∈ ks, p ∈ ks := fun p hp => hp
    have e1 := filter_parse_eq ks (sortDesc ks) hparse k hsub1
    have e2 := filter_parse_eq ks ks hparse k hsub2
    simp only [Function.comp_def]
    rw [e1, e2, filter_sortDesc]

/-! ## A concrete run of the table renderer, shared by the witnesses -/

/-- Record published 2010 with 20 Scholar citations: 2.0 citations/year
at current year 2020. -/
def wEntry1 : Entry :=
  { standard := "S1", type_ := "t1", title := "T1", bib_key := some "k1", pub_year := some 2010, gs_citations := some 20 }

/-- Record published 2015 with 25 Scholar citations: 5.0 citations/year
at current year 2020. -/
def wEntry2 : Entry :=
  { standard := "S2", type_ := "t2", title := "T2", bib_key := some "k2", pub_year := some 2015, gs_citations := some 25 }

/-- Future-dated record (published 2021, current year 2020): age -1. -/
def wEntry3 : Entry :=
  { standard := "S3", type_ := "t3", title := "T3", bib_key := some "k3", pub_year := some 2021, gs_citations := some 7 }

/-- The witness record store. -/
def wEntries : List Entry := [wEntry1, wEntry2, wEntry3]

/-- The row rendered for `wEntry1`. -/
def wRow1 : List String := ["S1", "t1", citeCell "k1", "2010", "", "2.0", ""]

/-- The row rendered for `wEntry2`. -/
def wRow2 : List String := ["S2", "t2", citeCell "k2", "2015", "", "5.0", ""]

/-- The loop body on `wEntry1`. -/
theorem wRowOf1 : rowOf 2020 wEntry1 = .ok (some wRow1) := by
  have hage : ¬((2020 : ℚ) - 2010 ≤ 0) := by norm_num
  have hr : round ((20 : ℚ) / (2020 - 2010) * 10) = 20 := by norm_num [round_eq]
  simp only [wEntry1, wRow1, rowOf, if_neg hage, fmt1, hr, Except.ok.injEq,
    Option.some.injEq]
  decide

/-- The loop body on `wEntry2`. -/
theorem wRowOf2 : rowOf 2020 wEntry2 = .ok (some wRow2) := by
  have hage : ¬((2020 : ℚ) - 2015 ≤ 0) := by norm_num
  have hr : round ((25 : ℚ) / (2020 - 2015) * 10) = 50 := by norm_num [round_eq]
  simp only [wEntry2, wRow2, rowOf, if_neg hage, fmt1, hr, Except.ok.injEq,
    Option.some.injEq]
  decide

/-- The loop body skips the future-dated `wEntry3`. -/
theorem wRowOf3 : rowOf 2020 wEntry3 = .ok none := by
  have hage : (2020 : ℚ) - 2021 ≤ 0 := by norm_num
  simp only [wEntry3, rowOf, if_pos hage]

/-- The built row list of the witness store. -/
theorem wBuild : buildRows 2020 wEntries = .ok [wRow1, wRow2] := by
  simp only [wEntries, buildRows, wRowOf1, wRowOf2, wRowOf3]

/-- The parsed sort key of `wRow1`. -/
theorem wParse1 : parseKey wRow1 = some 2 := by
  have h1 : parseKey wRow1
      = some ((natOfDigits ['2'] : ℚ) + (natOfDigits ['0'] : ℚ) / (10 : ℚ) ^ (1 : ℕ)) := rfl
  have h2 : natOfDigits ['2'] = 2 := by decide
  have h3 : natOfDigits ['0'] = 0 := by decide
  rw [h1, h2, h3]
  norm_num

/-- The parsed sort key of `wRow2`. -/
theorem wParse2 : parseKey wRow2 = some 5 := by
  have h1 : parseKey wRow2
      = some ((natOfDigits ['5'] : ℚ) + (natOfDigits ['0'] : ℚ) / (10 : ℚ) ^ (1 : ℕ)) := rfl
  have h2 : natOfDigits ['5'] = 5 := by decide
  have h3 : natOfDigits ['0'] = 0 := by decide
  rw [h1, h2, h3]
  norm_num

/-- The sort puts the 5.0 row before the 2.0 row. -/
theorem wSort : sortRows [wRow1, wRow2] = .ok [wRow2, wRow1] := by
  have hkeyed : keyedRows [wRow1, wRow2] = some [(2, wRow1), (5, wRow2)] := by
    simp only [keyedRows, wParse1, wParse2, Option.map_some']
  have hs : sortDesc [((2 : ℚ), wRow1), (5, wRow2)] = [(5, wRow2), (2, wRow1)] := by
    have hle : ¬((5 : ℚ) ≤ 2) := by norm_num
    simp only [sortDesc, List.foldl_cons, List.foldl_nil, insertDesc, if_neg hle]
  rw [sortRows, hkeyed]
  simp only [hs]
  rfl

/-- The full witness run of the table renderer. -/
theorem wGen : generate_data_table 2020 wEntries = .ok [wRow2, wRow1] := by
  unfold generate_data_table
  rw [wBuild]
  exact wSort

/-- Witness for C7: applying the theorem to the concrete run: the
future-dated record is skipped and every rendered row comes from a
record that produced one. -/
theorem generate_data_table_skips_nonpositive_age_witness :
    (∀ e ∈ wEntries, ∀ py : ℚ, e.pub_year = some py → (2020 : ℚ) - py ≤ 0 →
        rowOf 2020 e = .ok none) ∧
      (∀ r ∈ [wRow2, wRow1], ∃ e ∈ wEntries, rowOf 2020 e = .ok (some r)) :=
  generate_data_table_skips_nonpositive_age 2020 wEntries [wRow2, wRow1] wGen

/-- Witness for C8: the concrete table is non-increasing in its parsed
Scholar key and fiber-equal to the built rows. -/
theorem generate_data_table_sorted_stable_witness :
    ([wRow2, wRow1].Pairwise (fun a b => ∀ x y : ℚ, parseKey a = some x →
        parseKey b = some y → y ≤ x)) ∧
      (∀ k : ℚ, [wRow2, wRow1].filter (fun r => parseKey r = some k)
        = [wRow1, wRow2].filter (fun r => parseKey r = some k)) :=
  generate_data_table_sorted_stable 2020 wEntries [wRow1, wRow2] [wRow2, wRow1]
    wBuild wGen

/-- Witness for C9: in the successful concrete run, the first record
(which produced a row) indeed carries a year and a Scholar count, and
its Scholar cell is non-empty. -/
theorem generate_data_table_requires_scholar_witness :
    wEntry1.pub_year.isSome ∧ wEntry1.gs_citations.isSome ∧ wRow1.getD 5 "" ≠ "" :=
  generate_data_table_requires_scholar 2020 wEntries [wRow2, wRow1] wGen wEntry1
    (by simp [wEntries]) wRow1 wRowOf1
